import Mathlib

/-!
Shallow embedding of the kronos-notifier price-acquisition engine
(`kronos_notifier.py`).  Strings are modelled as `List Char` (Python `str`
is a sequence of code points), Python floats as `ℚ` (all arithmetic the
program performs on them is exact decimal arithmetic), Python `None` as
`Option.none`, and raised exceptions as `Except PyErr`.  External effects
(HTTP exchanges, JSON parsing, BeautifulSoup element searches, regex
`findall` over page text) are supplied as oracle inputs; everything the
program itself computes is embedded faithfully.  The Unicode digit and
whitespace classes that `str.isdigit`, the regex `\d`, `int()`, `float()`
and `str.strip()` consult are embedded as explicit code-point tables
taken from the Unicode 14.0 database of the CPython runtime.
-/

/-- The single abstract exception value: which exception was raised never
influences the control flow of this program. -/
inductive PyErr where
  | err
deriving DecidableEq

/-- The zero digit of every Unicode Nd block (Unicode 14.0): each block is
ten consecutive code points `z..z+9` whose decimal values are `0..9`. -/
def ndZeros : List Nat :=
  [48, 1632, 1776, 1984, 2406, 2534, 2662, 2790, 2918, 3046, 3174, 3302,
   3430, 3558, 3664, 3792, 3872, 4160, 4240, 6112, 6160, 6470, 6608, 6784,
   6800, 6992, 7088, 7232, 7248, 42528, 43216, 43264, 43472, 43504, 43600,
   44016, 65296, 66720, 68912, 69734, 69872, 69942, 70096, 70384, 70736,
   70864, 71248, 71360, 71472, 71904, 72016, 72784, 73040, 73120, 92768,
   92864, 93008, 120782, 120792, 120802, 120812, 120822, 123200, 123632,
   125264, 130032]

/-- The Nd block a character belongs to, if it is a decimal digit. -/
def ndZeroOf (c : Char) : Option Nat :=
  ndZeros.find? (fun z => decide (z ≤ c.toNat ∧ c.toNat ≤ z + 9))

/-- Unicode decimal digit (category Nd): the characters the regex `\d`
matches and `int()` and `float()` accept. -/
def isNdDigit (c : Char) : Bool :=
  (ndZeroOf c).isSome

/-- Unicode decimal value of an Nd digit (0 elsewhere, never consulted
there). -/
def ndVal (c : Char) : Nat :=
  match ndZeroOf c with
  | some z => c.toNat - z
  | none => 0

/-- Code-point ranges `str.isdigit` accepts beyond Nd (Numeric_Type=Digit
characters such as superscripts and circled digits); `int()` raises
`ValueError` on these. -/
def pyDigitExtraRanges : List (Nat × Nat) :=
  [(178, 179), (185, 185), (4969, 4977), (6618, 6618), (8304, 8304),
   (8308, 8313), (8320, 8329), (9312, 9320), (9332, 9340), (9352, 9360),
   (9450, 9450), (9461, 9469), (9471, 9471), (10102, 10110),
   (10112, 10120), (10122, 10130), (68160, 68163), (69216, 69224),
   (69714, 69722), (127232, 127242)]

/-- Python `str.isdigit`: Nd digits plus the Numeric_Type=Digit ranges. -/
def pyIsDigit (c : Char) : Bool :=
  isNdDigit c || pyDigitExtraRanges.any (fun r => decide (r.1 ≤ c.toNat ∧ c.toNat ≤ r.2))

/-- Code-point ranges of Python's whitespace class: the characters
`str.strip()` removes. -/
def pySpaceRanges : List (Nat × Nat) :=
  [(9, 13), (28, 32), (133, 133), (160, 160), (5760, 5760), (8192, 8202),
   (8232, 8233), (8239, 8239), (8287, 8287), (12288, 12288)]

/-- Python `str.isspace`. -/
def pyIsSpace (c : Char) : Bool :=
  pySpaceRanges.any (fun r => decide (r.1 ≤ c.toNat ∧ c.toNat ≤ r.2))

/-- Python truthiness of an optional float: `None` and `0.0` are falsy. -/
def truthyQ : Option ℚ → Bool
  | none => false
  | some x => decide (x ≠ 0)

/-- Python truthiness of an optional string: `None` and `""` are falsy. -/
def truthyS : Option (List Char) → Bool
  | none => false
  | some s => decide (s ≠ [])

/-- Python `a or b` on optional floats. -/
def pyOrQ (a b : Option ℚ) : Option ℚ :=
  if truthyQ a then a else b

/-- Python `a or b` on optional strings. -/
def pyOrS (a b : Option (List Char)) : Option (List Char) :=
  if truthyS a then a else b

/-- Value of a list of Nd decimal digits, as Python `int()` and `float()`
compute it: each digit contributes its Unicode decimal value. -/
def digitsToNat (ds : List Char) : Nat :=
  ds.foldl (fun a c => 10 * a + ndVal c) 0

/-- Python `int()` applied to a run of `str.isdigit` characters: succeeds
exactly when every character is an Nd decimal digit, and raises
`ValueError` otherwise. -/
def pyIntOfDigits (ds : List Char) : Option Nat :=
  if ds.all isNdDigit then some (digitsToNat ds) else none

/-- Standard decimal digit string of a natural number (what Python
`str(n)` produces for the length prefixes of the framing). -/
def natDigits (n : Nat) : List Char :=
  if h : n < 10 then [Char.ofNat (48 + n)]
  else natDigits (n / 10) ++ [Char.ofNat (48 + n % 10)]
  decreasing_by
    exact Nat.div_lt_self (by omega) (by omega)

/-- `fa_to_en_digits` character translation table: the ten Persian digits
U+06F0..U+06F9 map to ASCII `0`..`9`; every other character is unchanged. -/
def faToEnChar (c : Char) : Char :=
  if 0x6F0 ≤ c.toNat ∧ c.toNat ≤ 0x6F9 then Char.ofNat (c.toNat - 0x6F0 + 48) else c

/-- `fa_to_en_digits(s)`: translate Persian digits to ASCII digits. -/
def fa_to_en_digits (s : List Char) : List Char :=
  s.map faToEnChar

/-- The inverse direction, used only to state the normalizer invariance:
replace each ASCII digit by its Persian counterpart. -/
def persianizeChar (c : Char) : Char :=
  if 48 ≤ c.toNat ∧ c.toNat ≤ 57 then Char.ofNat (c.toNat - 48 + 0x6F0) else c

/-- `text.replace(",", "").replace("٬", "")`: delete both thousands
separator glyphs. -/
def stripSeps (s : List Char) : List Char :=
  s.filter (fun c => ¬ (c = ',' ∨ c = '٬'))

/-- Attempt to match the regex `\d+(\.\d+)?` anchored at the head of the
list; returns the matched token.  The optional fraction group is taken
only when a dot followed by at least one digit is present (greedy, as the
regex engine behaves). -/
def matchNumTail (l1 : List Char) : Option (List Char) :=
  let ds := l1.takeWhile isNdDigit
  if ds = [] then none
  else
    match l1.dropWhile isNdDigit with
    | '.' :: l3 =>
      let fs := l3.takeWhile isNdDigit
      if fs = [] then some ds
      else some (ds ++ '.' :: fs)
    | _ => some ds

/-- Attempt to match `-?\d+(\.\d+)?` anchored at the head of the list:
an optional leading minus sign, then digits with an optional fraction. -/
def matchNumAt (l : List Char) : Option (List Char) :=
  match l with
  | '-' :: rest => (matchNumTail rest).map (fun tok => '-' :: tok)
  | _ => matchNumTail l

/-- `re.search`: leftmost position at which `-?\d+(\.\d+)?` matches. -/
def searchNum : List Char → Option (List Char)
  | [] => none
  | c :: cs =>
    match matchNumAt (c :: cs) with
    | some tok => some tok
    | none => searchNum cs

/-- Fractional-part digits of a numeric token: the digits after the dot,
when a dot with at least one digit follows the integer part. -/
def fracDigits (t : List Char) : List Char :=
  match t.dropWhile isNdDigit with
  | '.' :: f => f.takeWhile isNdDigit
  | _ => []

/-- Value of an unsigned numeric token `digits[.digits]`. -/
def tokenMagnitude (t : List Char) : ℚ :=
  (digitsToNat (t.takeWhile isNdDigit) : ℚ)
    + (digitsToNat (fracDigits t) : ℚ) / 10 ^ (fracDigits t).length

/-- Python `float()` of a matched numeric token, exactly (the token is a
decimal numeral, so its value is rational). -/
def tokenToRat (tok : List Char) : ℚ :=
  match tok with
  | '-' :: rest => -(tokenMagnitude rest)
  | _ => tokenMagnitude tok

/-- `extract_number(text)`: empty input gives no value; otherwise translate
Persian digits, strip separators, and evaluate the first
`-?\d+(\.\d+)?` token, if any. -/
def extract_number (text : List Char) : Option ℚ :=
  if text = [] then none
  else (searchNum (stripSeps (fa_to_en_digits text))).map tokenToRat

/-- Text after the first occurrence of `label`, when `label` occurs. -/
def dropAfterFirst (label : List Char) : List Char → Option (List Char)
  | [] => if label = [] then some [] else none
  | c :: rest =>
    if label.isPrefixOf (c :: rest) then some ((c :: rest).drop label.length)
    else dropAfterFirst label rest

/-- `get_value_after_label(elem, label)` with the element's text supplied
as the oracle input: `None` element gives no value; otherwise split on the
first occurrence of the label (whole text if absent) and extract a number. -/
def get_value_after_label (text : Option (List Char)) (label : List Char) : Option ℚ :=
  match text with
  | none => none
  | some t =>
    if t = [] then none
    else
      let after := match dropAfterFirst label t with
        | some a => a
        | none => t
      extract_number after

/-- `decode_engineio_payload(payload)`: repeatedly read a run of
`str.isdigit` characters, a colon, and as many following characters as the
run's `int()` value as one packet; when the expected run-plus-colon header
is absent, the whole remaining buffer is one final packet; `int()` raises
when the run contains a non-decimal digit character, and the exception
propagates (there is no handler inside the decoder). -/
def decode_engineio_payload : List Char → Except PyErr (List (List Char))
  | [] => .ok []
  | c :: cs =>
    if pyIsDigit c then
      match hr : cs.dropWhile pyIsDigit with
      | ':' :: tail =>
        match pyIntOfDigits (c :: cs.takeWhile pyIsDigit) with
        | some len =>
          match decode_engineio_payload (tail.drop len) with
          | .ok pkts => .ok (tail.take len :: pkts)
          | .error e => .error e
        | none => .error PyErr.err
      | _ => .ok [c :: cs]
    else .ok [c :: cs]
  termination_by l => l.length
  decreasing_by
    have h1 : (cs.dropWhile pyIsDigit).length ≤ cs.length :=
      (List.dropWhile_sublist pyIsDigit).length_le
    rw [hr] at h1
    simp only [List.length_cons] at h1
    have h2 : (tail.drop len).length ≤ tail.length := by
      rw [List.length_drop]; omega
    simp only [List.length_cons]
    omega

/-- Encoder for the framing: each payload is preceded by its decimal
length and a colon, segments concatenated with no delimiter. -/
def encode_engineio_payload (ps : List (List Char)) : List Char :=
  match ps with
  | [] => []
  | p :: rest => natDigits p.length ++ ':' :: (p ++ encode_engineio_payload rest)

/-- Whether the buffer begins with a frame header in the program's sense:
one or more `str.isdigit` characters followed by a colon. -/
def frameStart : List Char → Bool
  | [] => false
  | c :: cs =>
    pyIsDigit c &&
      (match cs.dropWhile pyIsDigit with
       | ':' :: _ => true
       | _ => false)

/-- The frame-header test with "digits" read as ordinary decimal (Nd)
digits — the reading of the claim under test. -/
def ndFrameStart : List Char → Bool
  | [] => false
  | c :: cs =>
    isNdDigit c &&
      (match cs.dropWhile isNdDigit with
       | ':' :: _ => true
       | _ => false)

/-- `compute_tp_sl(base, pred)`: on a falsy argument return
`(pred or base, base)`; otherwise target is the prediction and stop-loss
sits half the absolute divergence on the far side of the base. -/
def compute_tp_sl (base pred : Option ℚ) : Option ℚ × Option ℚ :=
  if truthyQ base = false ∨ truthyQ pred = false then
    (if truthyQ pred then pred else base, base)
  else
    let b := base.getD 0
    let p := pred.getD 0
    let diff := |p - b|
    let sl := if p > b then b - (0.5 : ℚ) * diff else b + (0.5 : ℚ) * diff
    (some p, some sl)

/-- The fixed timeframe preference order. -/
def tfPreferenceOrder : List (List Char) :=
  ["H1".toList, "M30".toList, "M15".toList, "M5".toList, "M1".toList,
   "H4".toList, "D1".toList, "W1".toList, "MN".toList]

/-- Lexicographic order on code-point sequences, as Python compares and
sorts strings. -/
def lexLe : List Char → List Char → Bool
  | [], _ => true
  | _ :: _, [] => false
  | x :: xs, y :: ys => if x = y then lexLe xs ys else decide (x < y)

/-- `select_timeframe(results, preferred)` over the mapping's key list:
a truthy preferred key present in the mapping wins; else the first present
key of the preference order; else the head of the sorted key list; else
nothing. -/
def select_timeframe (keys : List (List Char)) (preferred : Option (List Char)) :
    Option (List Char) :=
  let fallback :=
    match tfPreferenceOrder.find? (fun tf => keys.contains tf) with
    | some tf => some tf
    | none => (keys.mergeSort lexLe).head?
  match preferred with
  | some p => if p ≠ [] ∧ keys.contains p then some p else fallback
  | none => fallback

/-- The notification threshold: a fixed constant of the program. -/
def THRESHOLD : ℚ := 3.5

/-- One timeframe record of the payload's `results` mapping (checked
lookups of the three price fields the program reads). -/
structure TfRecord where
  base_price : Option ℚ
  prediction : Option ℚ
  kronos_pred : Option ℚ
deriving DecidableEq

/-- One record of the payload's `market_conditions` mapping. -/
structure CondRecord where
  condition_fa : Option (List Char)
  condition : Option (List Char)
deriving DecidableEq

/-- The JSON payload of the `update_all` event, as the program reads it.
`has_other_keys` records whether the JSON object carries any further keys,
which matters only for the dict truthiness test in the orchestrator. -/
structure SocketPayload where
  results : Option (List (List Char × TfRecord))
  market_conditions : Option (List (List Char × CondRecord))
  has_other_keys : Bool
deriving DecidableEq

/-- Python dict truthiness of the payload object. -/
def truthyPayload (d : SocketPayload) : Bool :=
  d.results.isSome || d.market_conditions.isSome || d.has_other_keys

/-- Checked association-list lookup (`dict.get`). -/
def lookupA {β : Type} (k : List Char) (l : List (List Char × β)) : Option β :=
  (l.find? (fun kv => kv.1 = k)).map (fun kv => kv.2)

/-- The dictionary `parse_socketio_payload` returns on success. -/
structure ParsedPayload where
  base_price : Option ℚ
  kronos_price : Option ℚ
  target_price : Option ℚ
  sl_price : Option ℚ
  state : Option (List Char)
  timeframe : List Char
deriving DecidableEq

/-- `parse_socketio_payload(data, preferred_tf)`. -/
def parse_socketio_payload (d : SocketPayload) (preferred_tf : Option (List Char)) :
    Option ParsedPayload :=
  let results := match d.results with
    | some l => l
    | none => []
  if results = [] then none
  else
    match select_timeframe (results.map (fun kv => kv.1)) preferred_tf with
    | none => none
    | some tf =>
      if tf = [] then none
      else
        let res := match lookupA tf results with
          | some r => r
          | none => ⟨none, none, none⟩
        let base_price := res.base_price
        let pred_price := pyOrQ res.prediction (pyOrQ res.kronos_pred base_price)
        let kronos_price := pyOrQ res.kronos_pred (pyOrQ res.prediction base_price)
        let tpsl := compute_tp_sl base_price pred_price
        let mc := match d.market_conditions with
          | some l => l
          | none => []
        let cond := match lookupA tf mc with
          | some c => c
          | none => ⟨none, none⟩
        let state := pyOrS cond.condition_fa cond.condition
        some ⟨base_price, kronos_price, tpsl.1, tpsl.2, state, tf⟩

/-- Oracle for the three network exchanges of the handshake client: each
either raises (connection error or non-2xx status) or yields a body. -/
structure Network where
  openResp : Except PyErr (List Char)
  postResp : Except PyErr Unit
  pollResp : Nat → Except PyErr (List Char)

/-- The JSON object of the open packet, as the program reads it. -/
structure SidJson where
  sid : Option (List Char)

/-- Scan the decoded open packets for the first one starting with `"0"`
and read its session id; a JSON parse failure yields the empty object. -/
def findSid (packets : List (List Char))
    (p0 : List Char → Option SidJson) : Option (List Char) :=
  match packets.find? (fun pk => pk.head? = some '0') with
  | some pk =>
    match p0 (pk.drop 1) with
    | some j => j.sid
    | none => none
  | none => none

/-- Scan decoded poll packets for the first `"42"` event packet whose JSON
parses to the `update_all` event; parse failures skip the packet. -/
def findEventPacket (packets : List (List Char))
    (p42 : List Char → Option (List Char × SocketPayload)) : Option SocketPayload :=
  match packets with
  | [] => none
  | pk :: rest =>
    if pk.take 2 = "42".toList then
      match p42 (pk.drop 2) with
      | some ed => if ed.1 = "update_all".toList then some ed.2
                   else findEventPacket rest p42
      | none => findEventPacket rest p42
    else findEventPacket rest p42

/-- The bounded poll loop, polling `n` more times starting at index `i`. -/
def pollLoop (net : Network)
    (p42 : List Char → Option (List Char × SocketPayload)) (i : Nat) :
    Nat → Except PyErr (Option SocketPayload)
  | 0 => .ok none
  | n + 1 => do
    let text ← net.pollResp i
    let pkts ← decode_engineio_payload text
    match findEventPacket pkts p42 with
    | some d => return some d
    | none => pollLoop net p42 (i + 1) n

/-- The body of `fetch_update_all_via_socketio` before its catch-all
handler: open, extract the session id, confirm, poll. -/
def fetchBody (net : Network) (p0 : List Char → Option SidJson)
    (p42 : List Char → Option (List Char × SocketPayload)) (max_polls : Nat) :
    Except PyErr (Option SocketPayload) := do
  let text ← net.openResp
  let pkts ← decode_engineio_payload text
  let sid := findSid pkts p0
  if sid = none ∨ sid = some ([] : List Char) then return none
  else do
    let _ ← net.postResp
    pollLoop net p42 0 max_polls

/-- `fetch_update_all_via_socketio`: the catch-all handler turns any
escaped exception into the distinguished no-payload value. -/
def fetch_update_all_via_socketio (net : Network)
    (p0 : List Char → Option SidJson)
    (p42 : List Char → Option (List Char × SocketPayload)) (max_polls : Nat) :
    Option SocketPayload :=
  match fetchBody net p0 p42 max_polls with
  | .ok v => v
  | .error _ => none

/-- The returned price snapshot (the timestamp, a wall-clock string, is
outside the model). -/
structure PriceSnapshot where
  base_price : ℚ
  kronos_price : ℚ
  target_price : Option ℚ
  sl_price : Option ℚ
  state : Option (List Char)
  difference : ℚ
  should_notify : Bool
deriving DecidableEq

/-- The snapshot dictionary both success paths of `check_kronos_price`
build: `difference` and `should_notify` are computed from the two prices
on the spot. -/
def mkSnapshot (b k : ℚ) (target sl : Option ℚ) (state : Option (List Char)) :
    PriceSnapshot :=
  { base_price := b
    kronos_price := k
    target_price := target
    sl_price := sl
    state := state
    difference := k - b
    should_notify := decide (|k - b| > THRESHOLD) }

/-- Oracle inputs of the markup path: the text fragments and per-stage
search results that BeautifulSoup and the regex engine deliver from the
fetched page. -/
structure MarkupInputs where
  baseElemText : Option (List Char)
  targetElemText : Option (List Char)
  slElemText : Option (List Char)
  kronosElemText : Option (List Char)
  stateElemText : Option (List Char)
  baseLabelValue : Option ℚ
  targetLabelValue : Option ℚ
  slLabelValue : Option ℚ
  elementsBaseValue : Option ℚ
  basePatternMatches : List (List (List Char))
  kronosSearchTexts : List (List Char)

/-- Inner loop of the tertiary full-page search: the first regex match of
one pattern whose extracted value is truthy and above the plausibility
floor. -/
def tertiaryScanMatches : List (List Char) → Option ℚ
  | [] => none
  | m :: rest =>
    match extract_number m with
    | some v => if v ≠ 0 ∧ v > 1000 then some v else tertiaryScanMatches rest
    | none => tertiaryScanMatches rest

/-- Outer loop of the tertiary search over the pattern list, with the
source's re-check of the found value before breaking. -/
def tertiaryBaseSearch : List (List (List Char)) → Option ℚ
  | [] => none
  | ms :: rest =>
    match tertiaryScanMatches ms with
    | some v => if v ≠ 0 ∧ v > 1000 then some v else tertiaryBaseSearch rest
    | none => tertiaryBaseSearch rest

/-- The fallback element scan for the `Kronos:` label: first strictly
positive value following the label in one of the candidate texts. -/
def kronosElemSearch : List (List Char) → Option ℚ
  | [] => none
  | t :: rest =>
    match get_value_after_label (some t) ("Kronos:".toList) with
    | some kp => if kp ≠ 0 ∧ kp > 0 then some kp else kronosElemSearch rest
    | none => kronosElemSearch rest

/-- Stage one of the base-price search: value after `Base:` in the first
matching text node. -/
def markupBaseStage1 (mi : MarkupInputs) : Option ℚ :=
  get_value_after_label mi.baseElemText ("Base:".toList)

/-- Base price after the primary and secondary stages (label search, then
class/attribute element search), before the tertiary full-page search. -/
def markupBaseBeforeTertiary (mi : MarkupInputs) : Option ℚ :=
  let b0 := markupBaseStage1 mi
  let b1 := if b0 = none ∨ b0 = some 0 then mi.baseLabelValue else b0
  if b1 = none ∨ b1 = some 0 then mi.elementsBaseValue else b1

/-- The final base price of the markup path: the tertiary full-page
pattern search runs only when everything before it yielded nothing. -/
def markupBasePrice (mi : MarkupInputs) : Option ℚ :=
  let b2 := markupBaseBeforeTertiary mi
  if b2 = none ∨ b2 = some 0 then
    match tertiaryBaseSearch mi.basePatternMatches with
    | some v => some v
    | none => b2
  else b2

/-- The markup path's target price: label stage then fallback search. -/
def markupTargetPrice (mi : MarkupInputs) : Option ℚ :=
  let t0 := get_value_after_label mi.targetElemText ("Target:".toList)
  if t0 = none then mi.targetLabelValue else t0

/-- The markup path's stop-loss price: label stage then fallback search. -/
def markupSlPrice (mi : MarkupInputs) : Option ℚ :=
  let s0 := get_value_after_label mi.slElemText ("SL:".toList)
  if s0 = none then mi.slLabelValue else s0

/-- The markup path's predicted price: number in the `Kronos:` element's
text, else the element scan, else the already-extracted target price. -/
def markupKronosPrice (mi : MarkupInputs) : Option ℚ :=
  let k0 := match mi.kronosElemText with
    | some t => if t = [] then none else extract_number t
    | none => none
  let k1 := if k0 = none then kronosElemSearch mi.kronosSearchTexts else k0
  if k1 = none then markupTargetPrice mi else k1

/-- Strip leading and trailing whitespace (Python `str.strip()`). -/
def stripWs (s : List Char) : List Char :=
  (s.dropWhile pyIsSpace).reverse.dropWhile pyIsSpace |>.reverse

/-- The markup path's market-state label: text after `State:` when the
label occurs, whole text otherwise, stripped. -/
def markupState (mi : MarkupInputs) : Option (List Char) :=
  match mi.stateElemText with
  | some txt =>
    if txt = [] then none
    else
      match dropAfterFirst ("State:".toList) txt with
      | some a => some (stripWs a)
      | none => some (stripWs txt)
  | none => none

/-- The markup half of `check_kronos_price`: assemble a snapshot when both
prices were extracted, the distinguished failure value otherwise. -/
def markupExtract (mi : MarkupInputs) : Option PriceSnapshot :=
  match markupBasePrice mi, markupKronosPrice mi with
  | some b, some k =>
    some (mkSnapshot b k (markupTargetPrice mi) (markupSlPrice mi) (markupState mi))
  | some _, none => none
  | none, _ => none

/-- The streaming half of `check_kronos_price`: the snapshot built from a
parsed payload whose base and predicted prices are truthy. -/
def streamSnapshot (parsed : ParsedPayload) : PriceSnapshot :=
  mkSnapshot (parsed.base_price.getD 0) (parsed.kronos_price.getD 0)
    parsed.target_price parsed.sl_price parsed.state

/-- The markup half of the orchestrator body: the markup fetch (plain
HTTP or the browser-rendering fetcher) either raises or yields the
page-derived oracle inputs, which the extractor then consumes. -/
def markupPathRun (markupFetch : Except PyErr MarkupInputs) :
    Except PyErr (Option PriceSnapshot) :=
  match markupFetch with
  | .ok mi => .ok (markupExtract mi)
  | .error e => .error e

/-- The body of `check_kronos_price` before its catch-all handler: try the
streaming path first, fall back to the markup path on any incomplete or
missing streaming result. -/
def checkBody (net : Network) (p0 : List Char → Option SidJson)
    (p42 : List Char → Option (List Char × SocketPayload)) (max_polls : Nat)
    (preferred_tf : Option (List Char)) (markupFetch : Except PyErr MarkupInputs) :
    Except PyErr (Option PriceSnapshot) :=
  match fetch_update_all_via_socketio net p0 p42 max_polls with
  | some d =>
    if truthyPayload d then
      match parse_socketio_payload d preferred_tf with
      | some parsed =>
        if truthyQ parsed.base_price ∧ truthyQ parsed.kronos_price then
          .ok (some (streamSnapshot parsed))
        else markupPathRun markupFetch
      | none => markupPathRun markupFetch
    else markupPathRun markupFetch
  | none => markupPathRun markupFetch

/-- `check_kronos_price`: the catch-all handler turns any escaped
exception into the distinguished acquisition-failed value. -/
def check_kronos_price (net : Network) (p0 : List Char → Option SidJson)
    (p42 : List Char → Option (List Char × SocketPayload)) (max_polls : Nat)
    (preferred_tf : Option (List Char)) (markupFetch : Except PyErr MarkupInputs) :
    Option PriceSnapshot :=
  match checkBody net p0 p42 max_polls preferred_tf markupFetch with
  | .ok v => v
  | .error _ => none

lemma char_toNat_ofNat (n : Nat) (h : n < 55296) : (Char.ofNat n).toNat = n := by
  unfold Char.ofNat
  rw [dif_pos (Or.inl h)]
  simp [Char.toNat, Char.ofNatAux, UInt32.ofNat', UInt32.toNat, BitVec.toNat_ofNatLt]

lemma span_pred (p : Char → Bool) (xs ys : List Char) (hxs : ∀ c ∈ xs, p c = true)
    (hy : ∀ z zs, ys = z :: zs → p z = false) :
    (xs ++ ys).takeWhile p = xs ∧ (xs ++ ys).dropWhile p = ys := by
  induction xs with
  | nil =>
    simp only [List.nil_append]
    cases ys with
    | nil => simp
    | cons z zs =>
      have := hy z zs rfl
      constructor
      · rw [List.takeWhile_cons_of_neg]; simp [this]
      · rw [List.dropWhile_cons_of_neg]; simp [this]
  | cons c cs ih =>
    have hc := hxs c (by simp)
    have ih2 := ih (fun d hd => hxs d (by simp [hd]))
    constructor
    · rw [List.cons_append, List.takeWhile_cons_of_pos (by simp [hc])]
      rw [ih2.1]
    · rw [List.cons_append, List.dropWhile_cons_of_pos (by simp [hc])]
      exact ih2.2

lemma digitsToNat_append (xs : List Char) (c : Char) :
    digitsToNat (xs ++ [c]) = 10 * digitsToNat xs + ndVal c := by
  simp [digitsToNat, List.foldl_append]

lemma digitChar_nd (m : Nat) (h : m < 10) : isNdDigit (Char.ofNat (48 + m)) = true := by
  interval_cases m <;> decide

lemma digitChar_ndVal (m : Nat) (h : m < 10) : ndVal (Char.ofNat (48 + m)) = m := by
  interval_cases m <;> decide

lemma nd_imp_py (c : Char) (h : isNdDigit c = true) : pyIsDigit c = true := by
  simp [pyIsDigit, h]

lemma natDigits_all_nd (n : Nat) : ∀ c ∈ natDigits n, isNdDigit c = true := by
  induction n using natDigits.induct with
  | case1 n h =>
    rw [natDigits, dif_pos h]
    intro c hc
    simp at hc
    subst hc
    exact digitChar_nd n h
  | case2 n h ih =>
    rw [natDigits, dif_neg h]
    intro c hc
    rcases List.mem_append.mp hc with h1 | h2
    · exact ih c h1
    · simp at h2
      subst h2
      exact digitChar_nd (n % 10) (Nat.mod_lt _ (by omega))

lemma natDigits_ne_nil (n : Nat) : natDigits n ≠ [] := by
  induction n using natDigits.induct with
  | case1 n h => rw [natDigits, dif_pos h]; simp
  | case2 n h ih => rw [natDigits, dif_neg h]; simp

lemma digitsToNat_natDigits (n : Nat) : digitsToNat (natDigits n) = n := by
  induction n using natDigits.induct with
  | case1 n h =>
    rw [natDigits, dif_pos h]
    show digitsToNat ([] ++ [Char.ofNat (48 + n)]) = n
    rw [digitsToNat_append, digitChar_ndVal n h]
    simp [digitsToNat]
  | case2 n h ih =>
    rw [natDigits, dif_neg h]
    rw [digitsToNat_append, ih, digitChar_ndVal (n % 10) (Nat.mod_lt _ (by omega))]
    omega

lemma pyInt_natDigits (n : Nat) : pyIntOfDigits (natDigits n) = some n := by
  unfold pyIntOfDigits
  rw [if_pos (List.all_eq_true.mpr (fun c hc => natDigits_all_nd n c hc)),
      digitsToNat_natDigits]

lemma decode_frame (d : Char) (ds tail : List Char) (hd : pyIsDigit d = true)
    (hds : ∀ c ∈ ds, pyIsDigit c = true) :
    decode_engineio_payload (d :: (ds ++ ':' :: tail)) =
      (match pyIntOfDigits (d :: ds) with
       | some len =>
         (match decode_engineio_payload (tail.drop len) with
          | .ok pkts => .ok (tail.take len :: pkts)
          | .error e => .error e)
       | none => .error PyErr.err) := by
  have hsp := span_pred pyIsDigit ds (':' :: tail) hds
    (by intro z zs h; injection h with h1 _; subst h1; decide)
  rw [decode_engineio_payload]
  simp only [hd, if_true, hsp.1]
  split
  · rename_i tail1 heq
    rw [hsp.2] at heq
    injection heq with h1 h2
    subst h2
    rfl
  · rename_i hne
    exact absurd (hne tail hsp.2) (by simp)

lemma decode_frame_ok (d : Char) (ds tail : List Char) (hd : pyIsDigit d = true)
    (hds : ∀ c ∈ ds, pyIsDigit c = true) (len : Nat)
    (hint : pyIntOfDigits (d :: ds) = some len) :
    decode_engineio_payload (d :: (ds ++ ':' :: tail)) =
      (match decode_engineio_payload (tail.drop len) with
       | .ok pkts => .ok (tail.take len :: pkts)
       | .error e => .error e) := by
  rw [decode_frame d ds tail hd hds, hint]

lemma decode_malformed (t : List Char) (ht : t ≠ []) (hf : frameStart t = false) :
    decode_engineio_payload t = .ok [t] := by
  cases t with
  | nil => exact absurd rfl ht
  | cons c cs =>
    rw [decode_engineio_payload]
    by_cases hc : pyIsDigit c = true
    · simp only [hc, if_true]
      simp only [frameStart, hc, Bool.true_and] at hf
      split
      · rename_i tail heq
        rw [heq] at hf
        simp at hf
      · rfl
    · simp [hc]

lemma decode_encode_append (ps : List (List Char)) (r : List Char) :
    decode_engineio_payload (encode_engineio_payload ps ++ r) =
      (match decode_engineio_payload r with
       | .ok pkts => .ok (ps ++ pkts)
       | .error e => .error e) := by
  induction ps with
  | nil =>
    show decode_engineio_payload ([] ++ r) = _
    rw [List.nil_append]
    cases h : decode_engineio_payload r with
    | ok pkts => simp
    | error e => simp
  | cons p rest ih =>
    rw [encode_engineio_payload]
    cases hnd : natDigits p.length with
    | nil => exact absurd hnd (natDigits_ne_nil _)
    | cons d ds =>
      have hall := natDigits_all_nd p.length
      rw [hnd] at hall
      have hd : pyIsDigit d = true := nd_imp_py _ (hall d (by simp))
      have hds : ∀ c ∈ ds, pyIsDigit c = true :=
        fun c hc => nd_imp_py _ (hall c (by simp [hc]))
      have hre : (d :: ds ++ ':' :: (p ++ encode_engineio_payload rest)) ++ r
          = d :: (ds ++ ':' :: (p ++ (encode_engineio_payload rest ++ r))) := by
        simp
      have hint : pyIntOfDigits (d :: ds) = some p.length := by
        rw [← hnd, pyInt_natDigits]
      rw [hre, decode_frame_ok d ds _ hd hds p.length hint]
      rw [List.take_left, List.drop_left, ih]
      cases h : decode_engineio_payload r with
      | ok pkts => rfl
      | error e => rfl

/-- C6: decoding the concatenation of length-prefixed segments built from
any finite list of payload strings — including the empty list and
one-element lists — succeeds and returns exactly the original payloads in
order. -/
theorem decode_engineio_roundtrip (ps : List (List Char)) :
    decode_engineio_payload (encode_engineio_payload ps) = .ok ps := by
  have h := decode_encode_append ps []
  have h2 : decode_engineio_payload [] = .ok [] := by rw [decode_engineio_payload]
  rw [h2] at h
  simpa using h

/-- Counterexample for C7 as stated: the buffer `"²:x"` does not begin
with one or more decimal digits followed by a colon — the superscript two
is no decimal digit — yet the decoder does not deliver the remainder as
one verbatim packet: `"²".isdigit()` admits the character into the length
run and `int("²")` then raises `ValueError`, which escapes the decoder. -/
theorem decode_malformed_raises_counterexample :
    ndFrameStart ("²:x".toList) = false
      ∧ ("²:x".toList) ≠ []
      ∧ decode_engineio_payload ("²:x".toList) = .error PyErr.err
      ∧ decode_engineio_payload ("²:x".toList) ≠ .ok [("²:x".toList)] := by
  have hdec : decode_engineio_payload ("²:x".toList) = .error PyErr.err := by
    have h1 : pyIsDigit '²' = true := by decide
    have h2 : (":x".toList).dropWhile pyIsDigit = ':' :: ("x".toList) := by decide
    have h0 : ("²:x".toList) = '²' :: (":x".toList) := rfl
    rw [h0, decode_engineio_payload]
    simp only [h1, if_true]
    split
    · rename_i tail1 heq
      rw [h2] at heq
      injection heq with h3 h4
      subst h4
      rw [show pyIntOfDigits ('²' :: (":x".toList).takeWhile pyIsDigit) = none
            from by decide]
    · rename_i hne
      exact absurd (hne _ h2) (by simp)
  refine ⟨by decide, by decide, hdec, ?_⟩
  rw [hdec]
  simp

/-- C7 (amended): when the buffer remaining at the current decode position
does not begin with one or more characters of Python's `str.isdigit` class
followed by a colon, the decoder stops and appends that entire remainder —
leading digit characters included — verbatim as one final packet, without
raising. -/
theorem decode_engineio_malformed_tail (ps : List (List Char)) (t : List Char)
    (ht : t ≠ []) (hf : frameStart t = false) :
    decode_engineio_payload (encode_engineio_payload ps ++ t) = .ok (ps ++ [t]) := by
  rw [decode_encode_append, decode_malformed t ht hf]

/-- Witness for C7 at a concrete malformed tail with leading digits. -/
theorem decode_engineio_malformed_tail_witness :
    decode_engineio_payload (encode_engineio_payload ["ab".toList] ++ "12x".toList)
      = .ok (["ab".toList] ++ ["12x".toList]) :=
  decode_engineio_malformed_tail ["ab".toList] ("12x".toList) (by decide) (by decide)

/-- C4: for present (truthy) base and predicted prices, `compute_tp_sl`
returns the prediction as target and places the stop-loss half the
absolute divergence below the base when the prediction exceeds the base,
half above it otherwise. -/
theorem compute_tp_sl_present (b p : ℚ) (hb : b ≠ 0) (hp : p ≠ 0) :
    compute_tp_sl (some b) (some p) =
      (some p, some (if p > b then b - (0.5 : ℚ) * |p - b| else b + (0.5 : ℚ) * |p - b|)) := by
  unfold compute_tp_sl
  simp [truthyQ, hb, hp]

/-- Witness for C4: base 2650 with prediction 2660 yields target 2660 and
stop-loss 2645; with prediction 2640 the stop-loss is 2655. -/
theorem compute_tp_sl_present_witness :
    compute_tp_sl (some 2650) (some 2660) = (some 2660, some 2645)
      ∧ compute_tp_sl (some 2650) (some 2640) = (some 2640, some 2655) := by
  constructor
  · rw [compute_tp_sl_present 2650 2660 (by norm_num) (by norm_num)]
    norm_num [abs_of_pos]
  · rw [compute_tp_sl_present 2650 2640 (by norm_num) (by norm_num)]
    norm_num [abs_of_neg]

/-- C10: a falsy (missing or zero) argument makes `compute_tp_sl` skip the
half-divergence formula and return the prediction if truthy else the base
as target, and the base as stop-loss; in particular a present base with a
missing prediction returns the base for both. -/
theorem compute_tp_sl_falsy :
    (∀ base pred : Option ℚ, truthyQ base = false ∨ truthyQ pred = false →
       compute_tp_sl base pred = (if truthyQ pred then pred else base, base))
    ∧ (∀ b : ℚ, compute_tp_sl (some b) none = (some b, some b)) := by
  constructor
  · intro base pred h
    unfold compute_tp_sl
    rw [if_pos h]
  · intro b
    unfold compute_tp_sl
    simp [truthyQ]

/-- Witness for C10 at a concrete present base and missing prediction. -/
theorem compute_tp_sl_falsy_witness :
    compute_tp_sl (some 2650) none = (some 2650, some 2650) := by
  have h := compute_tp_sl_falsy.1 (some 2650) none (by simp [truthyQ])
  simpa [truthyQ] using h

lemma faToEnChar_persianizeChar (c : Char) :
    faToEnChar (persianizeChar c) = faToEnChar c := by
  unfold persianizeChar
  by_cases h : 48 ≤ c.toNat ∧ c.toNat ≤ 57
  · rw [if_pos h]
    unfold faToEnChar
    have h1 : (Char.ofNat (c.toNat - 48 + 0x6F0)).toNat = c.toNat - 48 + 0x6F0 :=
      char_toNat_ofNat _ (by omega)
    rw [if_pos (by rw [h1]; omega)]
    rw [if_neg (by omega)]
    rw [h1]
    have h2 : c.toNat - 48 + 1776 - 1776 + 48 = c.toNat := by omega
    rw [h2, Char.ofNat_toNat]
  · rw [if_neg h]

lemma matchNumTail_eq_none_iff (l1 : List Char) :
    matchNumTail l1 = none ↔ l1.takeWhile isNdDigit = [] := by
  unfold matchNumTail
  by_cases hd : l1.takeWhile isNdDigit = []
  · simp [hd]
  · rw [if_neg hd]
    constructor
    · intro h
      split at h
      · dsimp only at h
        split at h <;> exact Option.noConfusion h
      · exact Option.noConfusion h
    · intro h
      exact absurd h hd

lemma matchNumAt_cons_ne (c : Char) (cs : List Char) (h : c ≠ '-') :
    matchNumAt (c :: cs) = matchNumTail (c :: cs) := by
  unfold matchNumAt
  split
  · rename_i heq
    injection heq with h1 _
    exact absurd h1 h
  · rfl

lemma matchNumAt_cons_minus (cs : List Char) :
    matchNumAt ('-' :: cs) = (matchNumTail cs).map (fun tok => '-' :: tok) := by
  unfold matchNumAt
  split
  · rename_i rest heq
    injection heq with _ h2
    subst h2
    rfl
  · rename_i hne
    exact ((hne cs rfl).elim)

lemma takeWhile_nil_iff (c : Char) (cs : List Char) :
    (c :: cs).takeWhile isNdDigit = [] ↔ isNdDigit c = false := by
  rw [List.takeWhile_cons]
  by_cases h : isNdDigit c = true
  · simp [h]
  · simp_all

lemma takeWhile_digit_nil (l : List Char) (h : ∀ d ∈ l, isNdDigit d = false) :
    l.takeWhile isNdDigit = [] := by
  cases l with
  | nil => rfl
  | cons d ds =>
    rw [takeWhile_nil_iff]
    exact h d (by simp)

lemma searchNum_eq_none_iff (t : List Char) :
    searchNum t = none ↔ ∀ c ∈ t, isNdDigit c = false := by
  induction t with
  | nil => simp [searchNum]
  | cons c cs ih =>
    rw [searchNum]
    constructor
    · intro h
      cases hm : matchNumAt (c :: cs) with
      | some tok =>
        rw [hm] at h
        exact Option.noConfusion h
      | none =>
        rw [hm] at h
        intro d hd
        rcases List.mem_cons.mp hd with h1 | h2
        · subst h1
          by_cases hdm : d = '-'
          · subst hdm; decide
          · rw [matchNumAt_cons_ne d cs hdm, matchNumTail_eq_none_iff,
                takeWhile_nil_iff] at hm
            exact hm
        · exact (ih.mp h) d h2
    · intro h
      have hc : isNdDigit c = false := h c (by simp)
      have hcs : ∀ d ∈ cs, isNdDigit d = false := fun d hd => h d (by simp [hd])
      have hm : matchNumAt (c :: cs) = none := by
        by_cases hdm : c = '-'
        · subst hdm
          rw [matchNumAt_cons_minus,
              (matchNumTail_eq_none_iff cs).mpr (takeWhile_digit_nil cs hcs)]
          rfl
        · rw [matchNumAt_cons_ne c cs hdm, matchNumTail_eq_none_iff]
          exact takeWhile_digit_nil (c :: cs) h
      rw [hm]
      exact ih.mpr hcs

lemma normalized_no_digit_iff (s : List Char) :
    (∀ d ∈ stripSeps (fa_to_en_digits s), isNdDigit d = false)
      ↔ ∀ c ∈ s, isNdDigit (faToEnChar c) = false := by
  unfold stripSeps fa_to_en_digits
  constructor
  · intro h c hc
    by_cases hsep : faToEnChar c = ',' ∨ faToEnChar c = '٬'
    · rcases hsep with h1 | h1 <;> rw [h1] <;> decide
    · exact h (faToEnChar c) (by
        rw [List.mem_filter]
        refine ⟨List.mem_map_of_mem _ hc, ?_⟩
        simpa using hsep)
  · intro h d hd
    rw [List.mem_filter] at hd
    rcases List.mem_map.mp hd.1 with ⟨c, hc, rfl⟩
    exact h c hc

/-- C8: `extract_number` is total and returns no value exactly when the
input contains no Unicode decimal digit; translating every ASCII digit to
its Persian counterpart never changes the result, and neither does an
inserted `,` or `٬` separator anywhere in the string; a concrete
Persian-digit, Persian-separator numeral parses to 2650.75, and an
Arabic-Indic digit outside the Persian translation table still parses to
its value. -/
theorem extract_number_contract :
    (∀ s : List Char, extract_number s = none ↔ ∀ c ∈ s, isNdDigit (faToEnChar c) = false)
    ∧ (∀ s : List Char, extract_number (s.map persianizeChar) = extract_number s)
    ∧ (∀ s1 s2 : List Char, extract_number (s1 ++ ',' :: s2) = extract_number (s1 ++ s2))
    ∧ (∀ s1 s2 : List Char, extract_number (s1 ++ '٬' :: s2) = extract_number (s1 ++ s2))
    ∧ extract_number ("۲٬۶۵۰.۷۵".toList) = some ((2650.75 : ℚ))
    ∧ extract_number ("٤".toList) = some ((4 : ℚ)) := by
  have hsep_gen : ∀ (z : Char), faToEnChar z = z → (¬ (z = ',' ∨ z = '٬') → False) →
      ∀ s1 s2 : List Char, extract_number (s1 ++ z :: s2) = extract_number (s1 ++ s2) := by
    intro z hz hzsep s1 s2
    have hnorm : stripSeps (fa_to_en_digits (s1 ++ z :: s2))
        = stripSeps (fa_to_en_digits (s1 ++ s2)) := by
      unfold stripSeps fa_to_en_digits
      simp only [List.map_append, List.map_cons, List.filter_append, List.filter_cons]
      rw [hz]
      have : (decide ¬ (z = ',' ∨ z = '٬')) = false := by
        simp only [decide_eq_false_iff_not]
        intro hn
        exact hzsep hn
      rw [this]
      simp
    by_cases he : s1 ++ s2 = []
    · rcases List.append_eq_nil.mp he with ⟨h1, h2⟩
      subst h1; subst h2
      unfold extract_number
      rw [hnorm]
      rfl
    · unfold extract_number
      rw [if_neg (by simp), if_neg he, hnorm]
  refine ⟨?_, ?_, ?_, ?_, ?_, ?_⟩
  · intro s
    unfold extract_number
    by_cases he : s = []
    · subst he; simp
    · rw [if_neg he]
      constructor
      · intro h
        have hs : searchNum (stripSeps (fa_to_en_digits s)) = none := by
          cases hx : searchNum (stripSeps (fa_to_en_digits s)) with
          | none => rfl
          | some tok => rw [hx] at h; exact Option.noConfusion h
        exact (normalized_no_digit_iff s).mp ((searchNum_eq_none_iff _).mp hs)
      · intro h
        rw [(searchNum_eq_none_iff _).mpr ((normalized_no_digit_iff s).mpr h)]
        rfl
  · intro s
    have hm : fa_to_en_digits (s.map persianizeChar) = fa_to_en_digits s := by
      unfold fa_to_en_digits
      rw [List.map_map]
      exact List.map_congr_left (fun c _ => faToEnChar_persianizeChar c)
    by_cases he : s = []
    · subst he; rfl
    · unfold extract_number
      rw [if_neg he, if_neg (by simpa using he), hm]
  · exact hsep_gen ',' rfl (fun hn => hn (Or.inl rfl)) 
  · exact hsep_gen '٬' rfl (fun hn => hn (Or.inr rfl))
  · have h1 : searchNum (stripSeps (fa_to_en_digits ("۲٬۶۵۰.۷۵".toList)))
        = some ("2650.75".toList) := by decide
    unfold extract_number
    rw [if_neg (by decide), h1]
    have h2 : tokenToRat ("2650.75".toList) = 2650 + 75 / 100 := by
      have hmag : tokenMagnitude ("2650.75".toList) = 2650 + 75 / 100 := by
        unfold tokenMagnitude
        rw [show ("2650.75".toList).takeWhile isNdDigit = "2650".toList from by decide,
            show fracDigits ("2650.75".toList) = "75".toList from by decide,
            show digitsToNat ("2650".toList) = 2650 from by decide,
            show digitsToNat ("75".toList) = 75 from by decide,
            show ("75".toList).length = 2 from by decide]
        norm_num
      rw [show tokenToRat ("2650.75".toList) = tokenMagnitude ("2650.75".toList) from rfl,
          hmag]
    simp only [Option.map_some', h2]
    norm_num
  · unfold extract_number
    rw [if_neg (by decide),
        show searchNum (stripSeps (fa_to_en_digits ("٤".toList))) = some ("٤".toList)
          from by decide,
        Option.map_some',
        show tokenToRat ("٤".toList) = tokenMagnitude ("٤".toList) from rfl]
    unfold tokenMagnitude
    rw [show ("٤".toList).takeWhile isNdDigit = "٤".toList from by decide,
        show fracDigits ("٤".toList) = [] from by decide,
        show digitsToNat ("٤".toList) = 4 from by decide,
        show digitsToNat ([] : List Char) = 0 from rfl]
    norm_num

/-- Witness for C8: a string without digits yields no value. -/
theorem extract_number_contract_witness :
    extract_number ("no digits here".toList) = none :=
  (extract_number_contract.1 _).mpr (by decide)

lemma lexLe_refl (a : List Char) : lexLe a a = true := by
  induction a with
  | nil => rfl
  | cons x xs ih => simp [lexLe, ih]

lemma lexLe_total (a b : List Char) : lexLe a b = true ∨ lexLe b a = true := by
  induction a generalizing b with
  | nil => left; rfl
  | cons x xs ih =>
    cases b with
    | nil => right; rfl
    | cons y ys =>
      by_cases hxy : x = y
      · subst hxy
        rcases ih ys with h | h
        · left; simp [lexLe, h]
        · right; simp [lexLe, h]
      · rcases lt_or_gt_of_ne hxy with h | h
        · left; simp [lexLe, hxy, h]
        · right
          simp [lexLe, Ne.symm hxy]
          exact h
lemma lexLe_trans (a b c : List Char) (h1 : lexLe a b = true) (h2 : lexLe b c = true) :
    lexLe a c = true := by
  induction a generalizing b c with
  | nil => rfl
  | cons x xs ih =>
    cases b with
    | nil => exact absurd h1 (by simp [lexLe])
    | cons y ys =>
      cases c with
      | nil => exact absurd h2 (by simp [lexLe])
      | cons z zs =>
        by_cases hxy : x = y <;> by_cases hyz : y = z
        · subst hxy; subst hyz
          simp only [lexLe, if_pos rfl] at h1 h2 ⊢
          exact ih ys zs h1 h2
        · subst hxy
          simp only [lexLe, if_pos rfl, if_neg hyz] at h2 ⊢
          exact h2
        · subst hyz
          simp only [lexLe, if_pos rfl, if_neg hxy] at h1 ⊢
          exact h1
        · simp only [lexLe, if_neg hxy] at h1
          simp only [lexLe, if_neg hyz] at h2
          have h3 : x < z := lt_trans (by simpa using h1) (by simpa using h2)
          have hxz : x ≠ z := ne_of_lt h3
          simp [lexLe, hxz, h3]

lemma contains_iff_mem (keys : List (List Char)) (p : List Char) :
    keys.contains p = true ↔ p ∈ keys := by
  show keys.elem p = true ↔ p ∈ keys
  exact List.elem_iff

lemma fallback_isSome (keys : List (List Char)) (hk : keys ≠ []) :
    (match tfPreferenceOrder.find? (fun t => keys.contains t) with
     | some tf => some tf
     | none => (keys.mergeSort lexLe).head?).isSome = true := by
  cases hf : tfPreferenceOrder.find? (fun t => keys.contains t) with
  | some tf => rfl
  | none =>
    dsimp only
    simp only [List.head?_isSome, ne_eq]
    intro hms
    have hp := (List.mergeSort_perm keys lexLe).length_eq
    rw [hms] at hp
    exact hk (List.eq_nil_of_length_eq_zero hp.symm)

lemma select_timeframe_isSome (keys : List (List Char)) (preferred : Option (List Char))
    (hk : keys ≠ []) : (select_timeframe keys preferred).isSome = true := by
  unfold select_timeframe
  cases preferred with
  | none =>
    dsimp only
    exact fallback_isSome keys hk
  | some p =>
    dsimp only
    by_cases hcond : p ≠ [] ∧ keys.contains p = true
    · rw [if_pos hcond]
      rfl
    · rw [if_neg hcond]
      exact fallback_isSome keys hk

lemma select_timeframe_nil (preferred : Option (List Char)) :
    select_timeframe [] preferred = none := by
  unfold select_timeframe
  have hf : tfPreferenceOrder.find? (fun t => ([] : List (List Char)).contains t) = none := rfl
  cases preferred with
  | none =>
    dsimp only
    rw [hf]
    dsimp only
    rw [List.mergeSort_nil]
    rfl
  | some p =>
    dsimp only
    rw [if_neg (by simp), hf]
    dsimp only
    rw [List.mergeSort_nil]
    rfl

/-- C5 (amended): the preferred key wins when supplied, nonempty and
present; otherwise the first present key of the fixed preference order;
otherwise the lexicographically smallest present key; and the result is
empty exactly for the empty mapping — with `M15` selected from
`{M15, D1}` and no preferred key. -/
theorem select_timeframe_spec :
    (∀ (keys : List (List Char)) (p : List Char), p ≠ [] → p ∈ keys →
       select_timeframe keys (some p) = some p)
    ∧ (∀ (keys : List (List Char)) (preferred : Option (List Char)) (tf : List Char),
        (∀ p, preferred = some p → p = [] ∨ p ∉ keys) →
        tfPreferenceOrder.find? (fun t => keys.contains t) = some tf →
        select_timeframe keys preferred = some tf)
    ∧ (∀ (keys : List (List Char)) (preferred : Option (List Char)) (r : List Char),
        (∀ p, preferred = some p → p = [] ∨ p ∉ keys) →
        tfPreferenceOrder.find? (fun t => keys.contains t) = none →
        select_timeframe keys preferred = some r →
        r ∈ keys ∧ ∀ k ∈ keys, lexLe r k = true)
    ∧ (∀ (keys : List (List Char)) (preferred : Option (List Char)),
        select_timeframe keys preferred = none ↔ keys = [])
    ∧ select_timeframe ["M15".toList, "D1".toList] none = some ("M15".toList) := by
  have hfb_ne : ∀ (keys : List (List Char)) (preferred : Option (List Char)) (p : List Char),
      preferred = some p → (p = [] ∨ p ∉ keys) →
      select_timeframe keys preferred =
        (match tfPreferenceOrder.find? (fun t => keys.contains t) with
         | some tf => some tf
         | none => (keys.mergeSort lexLe).head?) := by
    intro keys preferred p hp hcond
    subst hp
    unfold select_timeframe
    dsimp only
    rw [if_neg ?ncond]
    case ncond =>
      intro hand
      rcases hcond with h1 | h1
      · exact hand.1 h1
      · exact h1 ((contains_iff_mem keys p).mp hand.2)
  have hfb_none : ∀ (keys : List (List Char)),
      select_timeframe keys none =
        (match tfPreferenceOrder.find? (fun t => keys.contains t) with
         | some tf => some tf
         | none => (keys.mergeSort lexLe).head?) := by
    intro keys
    unfold select_timeframe
    rfl
  have hfb : ∀ (keys : List (List Char)) (preferred : Option (List Char)),
      (∀ p, preferred = some p → p = [] ∨ p ∉ keys) →
      select_timeframe keys preferred =
        (match tfPreferenceOrder.find? (fun t => keys.contains t) with
         | some tf => some tf
         | none => (keys.mergeSort lexLe).head?) := by
    intro keys preferred hp
    cases preferred with
    | none => exact hfb_none keys
    | some p => exact hfb_ne keys (some p) p rfl (hp p rfl)
  refine ⟨?_, ?_, ?_, ?_, ?_⟩
  · intro keys p hne hmem
    unfold select_timeframe
    dsimp only
    rw [if_pos ⟨hne, (contains_iff_mem keys p).mpr hmem⟩]
  · intro keys preferred tf hp hfind
    rw [hfb keys preferred hp, hfind]
  · intro keys preferred r hp hfind hsel
    rw [hfb keys preferred hp, hfind] at hsel
    have hsorted : (keys.mergeSort lexLe).Pairwise (fun a b => lexLe a b) :=
      List.sorted_mergeSort
        (fun a b c h1 h2 => lexLe_trans a b c h1 h2)
        (fun a b => by
          rcases lexLe_total a b with h | h <;> simp [h])
        keys
    cases hms : keys.mergeSort lexLe with
    | nil => rw [hms] at hsel; exact Option.noConfusion hsel
    | cons m rest =>
      rw [hms] at hsel
      simp only [List.head?_cons, Option.some.injEq] at hsel
      subst hsel
      rw [hms] at hsorted
      constructor
      · have hmm : m ∈ keys.mergeSort lexLe := by rw [hms]; simp
        exact List.mem_mergeSort.mp hmm
      · intro k hk
        have hk2 : k ∈ keys.mergeSort lexLe := List.mem_mergeSort.mpr hk
        rw [hms] at hk2
        rcases List.mem_cons.mp hk2 with h1 | h2
        · subst h1; exact lexLe_refl k
        · exact (List.pairwise_cons.mp hsorted).1 k h2
  · intro keys preferred
    constructor
    · intro hsel
      by_contra hne
      have hs := select_timeframe_isSome keys preferred hne
      rw [hsel] at hs
      exact Bool.noConfusion hs
    · intro hk
      subst hk
      exact select_timeframe_nil preferred
  · rfl

/-- Counterexample for C5 as stated: the empty-string key is supplied as
the preferred key and is present in the mapping, yet the selection falls
through to the preference order and returns `H1` instead. -/
theorem select_timeframe_empty_preferred_counterexample :
    ([] : List Char) ∈ [([] : List Char), "H1".toList]
      ∧ select_timeframe [([] : List Char), "H1".toList] (some []) = some ("H1".toList)
      ∧ some ("H1".toList) ≠ some ([] : List Char) := by
  refine ⟨by simp, ?_, by simp⟩
  rfl

/-- Witness for C5: a nonempty preferred key present in the mapping is
returned unchanged. -/
theorem select_timeframe_spec_witness :
    select_timeframe ["M15".toList, "D1".toList] (some ("M15".toList))
      = some ("M15".toList) :=
  select_timeframe_spec.1 ["M15".toList, "D1".toList] ("M15".toList) (by decide) (by decide)

lemma tertiaryScanMatches_sound (ms : List (List Char)) (v : ℚ)
    (h : tertiaryScanMatches ms = some v) : v ≠ 0 ∧ v > 1000 := by
  induction ms with
  | nil => exact Option.noConfusion h
  | cons m rest ih =>
    rw [tertiaryScanMatches] at h
    cases hx : extract_number m with
    | none => rw [hx] at h; exact ih h
    | some w =>
      rw [hx] at h
      dsimp only at h
      by_cases hw : w ≠ 0 ∧ w > 1000
      · rw [if_pos hw] at h
        injection h with h1
        subst h1
        exact hw
      · rw [if_neg hw] at h
        exact ih h

/-- C9: the tertiary full-page search accepts a match only when its value
exceeds 1000: any accepted result is above the floor, a match of 1000 or
less is skipped and scanning continues, the search is not consulted when
the earlier stages produced a truthy base price, and when they produced
nothing its accepted value becomes the base price. -/
theorem tertiary_plausibility_floor :
    (∀ (pats : List (List (List Char))) (v : ℚ),
       tertiaryBaseSearch pats = some v → v > 1000)
    ∧ (∀ (m : List Char) (rest : List (List Char)) (v : ℚ),
        extract_number m = some v → v ≤ 1000 →
        tertiaryScanMatches (m :: rest) = tertiaryScanMatches rest)
    ∧ (∀ (mi : MarkupInputs) (pats : List (List (List Char))),
        truthyQ (markupBaseBeforeTertiary mi) = true →
        markupBasePrice { mi with basePatternMatches := pats }
          = markupBaseBeforeTertiary mi)
    ∧ (∀ (mi : MarkupInputs) (v : ℚ),
        (markupBaseBeforeTertiary mi = none ∨ markupBaseBeforeTertiary mi = some 0) →
        tertiaryBaseSearch mi.basePatternMatches = some v →
        markupBasePrice mi = some v) := by
  refine ⟨?_, ?_, ?_, ?_⟩
  · intro pats v h
    induction pats with
    | nil => exact Option.noConfusion h
    | cons ms rest ih =>
      rw [tertiaryBaseSearch] at h
      cases hx : tertiaryScanMatches ms with
      | none => rw [hx] at h; exact ih h
      | some w =>
        rw [hx] at h
        dsimp only at h
        have hw := tertiaryScanMatches_sound ms w hx
        rw [if_pos hw] at h
        injection h with h1
        subst h1
        exact hw.2
  · intro m rest v hx hle
    rw [tertiaryScanMatches, hx]
    dsimp only
    rw [if_neg (by intro hand; exact absurd hle (by simpa using hand.2))]
  · intro mi pats ht
    have hbt : markupBaseBeforeTertiary { mi with basePatternMatches := pats }
        = markupBaseBeforeTertiary mi := rfl
    unfold markupBasePrice
    rw [hbt]
    cases hb : markupBaseBeforeTertiary mi with
    | none => rw [hb] at ht; exact Bool.noConfusion ht
    | some b =>
      rw [hb] at ht
      have hbne : b ≠ 0 := by simpa [truthyQ] using ht
      rw [if_neg (by simp [hbne])]
  · intro mi v hcond hfound
    unfold markupBasePrice
    rw [if_pos hcond, hfound]

/-- Witness for C9: a 500 match is rejected, a 2650.5 match accepted. -/
theorem tertiary_plausibility_floor_witness :
    tertiaryBaseSearch [["500".toList, "2650.5".toList]] = some (2650.5 : ℚ)
      ∧ (2650.5 : ℚ) > 1000 := by
  have h1 : extract_number ("500".toList) = some (500 : ℚ) := by
    unfold extract_number
    rw [if_neg (by decide),
        show searchNum (stripSeps (fa_to_en_digits ("500".toList))) = some ("500".toList)
          from by decide,
        Option.map_some',
        show tokenToRat ("500".toList) = tokenMagnitude ("500".toList) from rfl]
    unfold tokenMagnitude
    rw [show ("500".toList).takeWhile isNdDigit = "500".toList from by decide,
        show fracDigits ("500".toList) = [] from by decide,
        show digitsToNat ("500".toList) = 500 from by decide,
        show digitsToNat ([] : List Char) = 0 from rfl]
    norm_num
  have h2 : extract_number ("2650.5".toList) = some (2650.5 : ℚ) := by
    unfold extract_number
    rw [if_neg (by decide),
        show searchNum (stripSeps (fa_to_en_digits ("2650.5".toList)))
          = some ("2650.5".toList) from by decide,
        Option.map_some',
        show tokenToRat ("2650.5".toList) = tokenMagnitude ("2650.5".toList) from rfl]
    unfold tokenMagnitude
    rw [show ("2650.5".toList).takeWhile isNdDigit = "2650".toList from by decide,
        show fracDigits ("2650.5".toList) = "5".toList from by decide,
        show digitsToNat ("2650".toList) = 2650 from by decide,
        show digitsToNat ("5".toList) = 5 from by decide,
        show ("5".toList).length = 1 from by decide]
    norm_num
  have hscan : tertiaryScanMatches ["500".toList, "2650.5".toList] = some (2650.5 : ℚ) := by
    rw [tertiaryScanMatches, h1]
    dsimp only
    rw [if_neg (by norm_num), tertiaryScanMatches, h2]
    dsimp only
    rw [if_pos (by norm_num)]
  have h3 : tertiaryBaseSearch [["500".toList, "2650.5".toList]] = some (2650.5 : ℚ) := by
    rw [tertiaryBaseSearch, hscan]
    dsimp only
    rw [if_pos (by norm_num)]
  exact ⟨h3, tertiary_plausibility_floor.1 _ _ h3⟩

lemma mkSnapshot_props (b k : ℚ) (t sl : Option ℚ) (st : Option (List Char)) :
    (mkSnapshot b k t sl st).difference
        = (mkSnapshot b k t sl st).kronos_price - (mkSnapshot b k t sl st).base_price
      ∧ ((mkSnapshot b k t sl st).should_notify = true
          ↔ |(mkSnapshot b k t sl st).difference| > THRESHOLD) := by
  constructor
  · rfl
  · simp [mkSnapshot]

lemma markupExtract_props (mi : MarkupInputs) (s : PriceSnapshot)
    (h : markupExtract mi = some s) :
    s.difference = s.kronos_price - s.base_price
      ∧ (s.should_notify = true ↔ |s.difference| > THRESHOLD) := by
  unfold markupExtract at h
  split at h
  · injection h with h1
    subst h1
    exact mkSnapshot_props _ _ _ _ _
  · exact Option.noConfusion h
  · exact Option.noConfusion h

lemma markupPathRun_props (mf : Except PyErr MarkupInputs) (s : PriceSnapshot)
    (h : markupPathRun mf = .ok (some s)) :
    s.difference = s.kronos_price - s.base_price
      ∧ (s.should_notify = true ↔ |s.difference| > THRESHOLD) := by
  cases mf with
  | error e => exact Except.noConfusion h
  | ok mi =>
    injection h with h1
    exact markupExtract_props mi s h1

/-- C1: every snapshot the acquisition orchestrator returns — on the
streaming path and on the markup path alike — carries a `difference` equal
to its own predicted (kronos) price minus its own base price, and a
`should_notify` flag that is set exactly when the absolute difference
strictly exceeds the 3.5 threshold; both fields are computed from the two
prices, never copied from upstream. -/
theorem snapshot_difference_invariant (net : Network)
    (p0 : List Char → Option SidJson)
    (p42 : List Char → Option (List Char × SocketPayload)) (max_polls : Nat)
    (preferred_tf : Option (List Char)) (markupFetch : Except PyErr MarkupInputs)
    (s : PriceSnapshot)
    (h : check_kronos_price net p0 p42 max_polls preferred_tf markupFetch = some s) :
    s.difference = s.kronos_price - s.base_price
      ∧ (s.should_notify = true ↔ |s.difference| > THRESHOLD) := by
  unfold check_kronos_price at h
  cases hcb : checkBody net p0 p42 max_polls preferred_tf markupFetch with
  | error e =>
    rw [hcb] at h
    exact Option.noConfusion h
  | ok v =>
    rw [hcb] at h
    dsimp only at h
    subst h
    unfold checkBody at hcb
    split at hcb
    · split at hcb
      · split at hcb
        · split at hcb
          · injection hcb with h1
            injection h1 with h2
            rw [← h2]
            unfold streamSnapshot
            exact mkSnapshot_props _ _ _ _ _
          · exact markupPathRun_props _ _ hcb
        · exact markupPathRun_props _ _ hcb
      · exact markupPathRun_props _ _ hcb
    · exact markupPathRun_props _ _ hcb

lemma extract_number_eval (t tok : List Char) (v : ℚ)
    (ht : t ≠ [])
    (hs : searchNum (stripSeps (fa_to_en_digits t)) = some tok)
    (hv : tokenToRat tok = v) :
    extract_number t = some v := by
  unfold extract_number
  rw [if_neg ht, hs, Option.map_some', hv]

lemma tokenToRat_2650 : tokenToRat ("2650".toList) = (2650 : ℚ) := by
  have h1 : tokenMagnitude ("2650".toList) = (2650 : ℚ) := by
    unfold tokenMagnitude
    rw [show ("2650".toList).takeWhile isNdDigit = "2650".toList from by decide,
        show fracDigits ("2650".toList) = [] from by decide,
        show digitsToNat ("2650".toList) = 2650 from by decide,
        show digitsToNat [] = 0 from by decide]
    norm_num
  exact h1

lemma tokenToRat_2660 : tokenToRat ("2660".toList) = (2660 : ℚ) := by
  have h1 : tokenMagnitude ("2660".toList) = (2660 : ℚ) := by
    unfold tokenMagnitude
    rw [show ("2660".toList).takeWhile isNdDigit = "2660".toList from by decide,
        show fracDigits ("2660".toList) = [] from by decide,
        show digitsToNat ("2660".toList) = 2660 from by decide,
        show digitsToNat [] = 0 from by decide]
    norm_num
  exact h1

def cBadNet : Network :=
  ⟨.error PyErr.err, .ok (), fun _ => .error PyErr.err⟩

def cMarkupInputs : MarkupInputs :=
  ⟨some ("Base: 2650 $".toList), none, none, some ("Kronos: 2660".toList), none,
   none, none, none, none, [], []⟩

def cSnapMarkup : PriceSnapshot := ⟨2650, 2660, none, none, none, 10, true⟩

lemma cMarkup_base : markupBasePrice cMarkupInputs = some (2650 : ℚ) := by
  have hstage1 : markupBaseStage1 cMarkupInputs = some (2650 : ℚ) := by
    unfold markupBaseStage1 get_value_after_label cMarkupInputs
    dsimp only
    rw [if_neg (by decide)]
    rw [show dropAfterFirst ("Base:".toList) ("Base: 2650 $".toList)
          = some (" 2650 $".toList) from by decide]
    exact extract_number_eval _ ("2650".toList) _ (by decide) (by decide) tokenToRat_2650
  have h2650 : ¬ ((2650 : ℚ) = 0) := by norm_num
  have hbt : markupBaseBeforeTertiary cMarkupInputs = some (2650 : ℚ) := by
    unfold markupBaseBeforeTertiary
    rw [hstage1]
    simp [h2650]
  unfold markupBasePrice
  rw [hbt]
  simp [h2650]

lemma cMarkup_kronos : markupKronosPrice cMarkupInputs = some (2660 : ℚ) := by
  have hk0 : extract_number ("Kronos: 2660".toList) = some (2660 : ℚ) :=
    extract_number_eval _ ("2660".toList) _ (by decide) (by decide) tokenToRat_2660
  unfold markupKronosPrice
  rw [show cMarkupInputs.kronosElemText = some ("Kronos: 2660".toList) from rfl]
  dsimp only
  rw [if_neg (show ¬ ("Kronos: 2660".toList = []) from by decide), hk0]
  simp [show ¬ ((2660 : ℚ) = 0) from by norm_num]

lemma cMarkup_extract : markupExtract cMarkupInputs = some cSnapMarkup := by
  unfold markupExtract
  rw [cMarkup_base, cMarkup_kronos]
  dsimp only
  have htgt : markupTargetPrice cMarkupInputs = none := rfl
  have hsl : markupSlPrice cMarkupInputs = none := rfl
  have hst : markupState cMarkupInputs = none := rfl
  rw [htgt, hsl, hst]
  unfold mkSnapshot cSnapMarkup
  have hd : (2660 : ℚ) - 2650 = 10 := by norm_num
  simp [hd, THRESHOLD]
  norm_num

def cParse0 : List Char → Option SidJson := fun s =>
  if s = "S".toList then some ⟨some ("abc".toList)⟩ else none

def cParse42 (pay : SocketPayload) : List Char → Option (List Char × SocketPayload) :=
  fun s => if s = "E".toList then some ("update_all".toList, pay) else none

def cPayEmpty : SocketPayload := ⟨none, none, false⟩

lemma cBad_fetch (p0 : List Char → Option SidJson)
    (p42 : List Char → Option (List Char × SocketPayload)) (mp : Nat) :
    fetch_update_all_via_socketio cBadNet p0 p42 mp = none := rfl

lemma cBad_check : check_kronos_price cBadNet cParse0 (cParse42 cPayEmpty) 5 none
    (.ok cMarkupInputs) = some cSnapMarkup := by
  unfold check_kronos_price checkBody markupPathRun
  rw [cBad_fetch]
  dsimp only
  exact cMarkup_extract

/-- Witness for C1: a concrete markup-path acquisition returns a snapshot
with difference 10 and the notify flag set. -/
theorem snapshot_difference_invariant_witness :
    check_kronos_price cBadNet cParse0 (cParse42 cPayEmpty) 5 none (.ok cMarkupInputs)
        = some cSnapMarkup
      ∧ cSnapMarkup.difference = cSnapMarkup.kronos_price - cSnapMarkup.base_price
      ∧ (cSnapMarkup.should_notify = true ↔ |cSnapMarkup.difference| > THRESHOLD) :=
  ⟨cBad_check,
   snapshot_difference_invariant cBadNet cParse0 (cParse42 cPayEmpty) 5 none
     (.ok cMarkupInputs) cSnapMarkup cBad_check⟩

lemma decode_encode_full (ps : List (List Char)) :
    decode_engineio_payload (encode_engineio_payload ps) = .ok ps := by
  have h := decode_encode_append ps []
  have h2 : decode_engineio_payload [] = .ok [] := by rw [decode_engineio_payload]
  rw [h2] at h
  simpa using h

lemma exceptBindOk {α β : Type} (a : α) (f : α → Except PyErr β) :
    (Except.ok a >>= f) = f a := rfl

lemma exceptBindErr {α β : Type} (e : PyErr) (f : α → Except PyErr β) :
    ((Except.error e : Except PyErr α) >>= f) = .error e := rfl

lemma fetch_finds_event (net : Network) (p0 : List Char → Option SidJson)
    (p42 : List Char → Option (List Char × SocketPayload)) (n : Nat)
    (body0 t0 sid : List Char) (pkts0 pktsT : List (List Char)) (pay : SocketPayload)
    (hopen : net.openResp = .ok body0)
    (hdec0 : decode_engineio_payload body0 = .ok pkts0)
    (hsid : findSid pkts0 p0 = some sid)
    (hsid_ne : sid ≠ [])
    (hpost : net.postResp = .ok ())
    (hpoll : net.pollResp 0 = .ok t0)
    (hdecT : decode_engineio_payload t0 = .ok pktsT)
    (hev : findEventPacket pktsT p42 = some pay) :
    fetch_update_all_via_socketio net p0 p42 (n + 1) = some pay := by
  have hloop : pollLoop net p42 0 (n + 1) = .ok (some pay) := by
    rw [pollLoop, hpoll, exceptBindOk, hdecT, exceptBindOk, hev]
    rfl
  unfold fetch_update_all_via_socketio fetchBody
  rw [hopen, exceptBindOk, hdec0, exceptBindOk]
  dsimp only
  rw [hsid]
  rw [if_neg (by simp [hsid_ne])]
  rw [hpost, exceptBindOk, hloop]

lemma truthyQ_lit (x : ℚ) (h : x ≠ 0) : truthyQ (some x) = true := by
  simp [truthyQ, h]

def cRecC2 : TfRecord := ⟨some 2650, some 2655, some 2670⟩

def cPayC2 : SocketPayload := ⟨some [("H1".toList, cRecC2)], none, false⟩

def cGoodNet : Network :=
  ⟨.ok (encode_engineio_payload ["0S".toList]), .ok (),
   fun _ => .ok (encode_engineio_payload ["42E".toList])⟩

def cParsedC2 : ParsedPayload :=
  ⟨some 2650, some 2670, some 2655, some (2647.5 : ℚ), none, "H1".toList⟩

def cSnapStream : PriceSnapshot :=
  ⟨2650, 2670, some 2655, some (2647.5 : ℚ), none, 20, true⟩

lemma cGood_fetch (pay : SocketPayload) :
    fetch_update_all_via_socketio cGoodNet cParse0 (cParse42 pay) 5 = some pay := by
  refine fetch_finds_event cGoodNet cParse0 (cParse42 pay) 4
    (encode_engineio_payload ["0S".toList]) (encode_engineio_payload ["42E".toList])
    ("abc".toList) ["0S".toList] ["42E".toList] pay rfl (decode_encode_full _) ?_
    (by decide) rfl rfl (decode_encode_full _) ?_
  · decide
  · unfold findEventPacket cParse42
    rw [if_pos (show ("42E".toList).take 2 = "42".toList from by decide)]
    rw [if_pos (show ("42E".toList).drop 2 = "E".toList from by decide)]
    dsimp only
    rw [if_pos rfl]

lemma cParse_eval : parse_socketio_payload cPayC2 none = some cParsedC2 := by
  have h2655 : truthyQ (some (2655 : ℚ)) = true := truthyQ_lit _ (by norm_num)
  have h2670 : truthyQ (some (2670 : ℚ)) = true := truthyQ_lit _ (by norm_num)
  have h2650 : truthyQ (some (2650 : ℚ)) = true := truthyQ_lit _ (by norm_num)
  unfold parse_socketio_payload
  rw [show cPayC2.results = some [("H1".toList, cRecC2)] from rfl]
  dsimp only
  rw [if_neg (by simp)]
  rw [show select_timeframe ([("H1".toList, cRecC2)].map (fun kv => kv.1)) none
        = some ("H1".toList) from rfl]
  dsimp only
  rw [if_neg (by decide)]
  rw [show lookupA ("H1".toList) [("H1".toList, cRecC2)] = some cRecC2 from rfl]
  dsimp only
  rw [show cRecC2.base_price = some (2650 : ℚ) from rfl,
      show cRecC2.prediction = some (2655 : ℚ) from rfl,
      show cRecC2.kronos_pred = some (2670 : ℚ) from rfl]
  rw [show pyOrQ (some (2655 : ℚ)) (pyOrQ (some 2670) (some 2650)) = some 2655 from by
        unfold pyOrQ; rw [h2655]; rfl,
      show pyOrQ (some (2670 : ℚ)) (pyOrQ (some 2655) (some 2650)) = some 2670 from by
        unfold pyOrQ; rw [h2670]; rfl]
  have htpsl : compute_tp_sl (some (2650 : ℚ)) (some (2655 : ℚ))
      = (some 2655, some (2647.5 : ℚ)) := by
    unfold compute_tp_sl
    rw [if_neg (by simp [h2650, h2655])]
    dsimp only [Option.getD]
    rw [if_pos (by norm_num)]
    norm_num
  rw [htpsl]
  rw [show cPayC2.market_conditions = (none : Option (List (List Char × CondRecord)))
        from rfl]
  dsimp only
  rfl

lemma check_streaming_success (net : Network) (p0 : List Char → Option SidJson)
    (p42 : List Char → Option (List Char × SocketPayload)) (mp : Nat)
    (ptf : Option (List Char)) (mf : Except PyErr MarkupInputs)
    (pay : SocketPayload) (parsed : ParsedPayload)
    (hfetch : fetch_update_all_via_socketio net p0 p42 mp = some pay)
    (htru : truthyPayload pay = true)
    (hparse : parse_socketio_payload pay ptf = some parsed)
    (hb : truthyQ parsed.base_price = true)
    (hk : truthyQ parsed.kronos_price = true) :
    check_kronos_price net p0 p42 mp ptf mf = some (streamSnapshot parsed) := by
  unfold check_kronos_price checkBody
  rw [hfetch]
  try dsimp only
  rw [htru]
  try rw [if_pos rfl]
  try dsimp only
  rw [hparse]
  try dsimp only
  rw [if_pos ⟨hb, hk⟩]
  try rfl

lemma cSnapStream_eval : streamSnapshot cParsedC2 = cSnapStream := by
  unfold streamSnapshot cParsedC2 mkSnapshot cSnapStream
  dsimp only [Option.getD]
  have hd : (2670 : ℚ) - 2650 = 20 := by norm_num
  simp [hd, THRESHOLD]
  norm_num

lemma cCheckC2 : check_kronos_price cGoodNet cParse0 (cParse42 cPayC2) 5 none
    (.error PyErr.err) = some cSnapStream := by
  rw [check_streaming_success cGoodNet cParse0 (cParse42 cPayC2) 5 none
      (.error PyErr.err) cPayC2 cParsedC2 (cGood_fetch cPayC2) rfl cParse_eval
      (truthyQ_lit _ (by norm_num)) (truthyQ_lit _ (by norm_num))]
  rw [cSnapStream_eval]

/-- Counterexample for C2 as stated: in a streaming record carrying both
`prediction` (2655) and `kronos_pred` (2670), the snapshot's predicted
price and the difference it induces come from `kronos_pred`, not from
`prediction`. -/
theorem parse_kronos_precedence_counterexample :
    cRecC2.prediction = some (2655 : ℚ)
      ∧ check_kronos_price cGoodNet cParse0 (cParse42 cPayC2) 5 none (.error PyErr.err)
          = some cSnapStream
      ∧ cSnapStream.kronos_price ≠ 2655
      ∧ cSnapStream.difference ≠ 2655 - 2650 := by
  refine ⟨rfl, cCheckC2, ?_, ?_⟩
  · show (2670 : ℚ) ≠ 2655
    norm_num
  · show (20 : ℚ) ≠ 2655 - 2650
    norm_num

/-- C2 (amended): for a streaming payload whose selected timeframe record
is present, the predicted price placed in the parsed result — the value
the streaming snapshot's difference is computed from — is `kronos_pred`
when present and nonzero, else `prediction` when present and nonzero, else
the base price. -/
theorem parse_kronos_precedence (d : SocketPayload) (ptf : Option (List Char))
    (results : List (List Char × TfRecord)) (tf : List Char) (rec : TfRecord)
    (hres : d.results = some results) (hne : results ≠ [])
    (hsel : select_timeframe (results.map (fun kv => kv.1)) ptf = some tf)
    (htf : tf ≠ [])
    (hrec : lookupA tf results = some rec) :
    (parse_socketio_payload d ptf).map ParsedPayload.kronos_price
      = some (if truthyQ rec.kronos_pred then rec.kronos_pred
              else if truthyQ rec.prediction then rec.prediction
              else rec.base_price)
      ∧ ∀ parsed : ParsedPayload,
          (streamSnapshot parsed).difference
            = parsed.kronos_price.getD 0 - parsed.base_price.getD 0 := by
  constructor
  · unfold parse_socketio_payload
    rw [hres]
    dsimp only
    rw [if_neg hne, hsel]
    dsimp only
    rw [if_neg htf, hrec]
    dsimp only
    rw [Option.map_some']
    unfold pyOrQ
    rfl
  · intro parsed
    rfl

/-- Witness for the amended C2 at the concrete two-field record. -/
theorem parse_kronos_precedence_witness :
    (parse_socketio_payload cPayC2 none).map ParsedPayload.kronos_price
      = some (some (2670 : ℚ)) := by
  have h := (parse_kronos_precedence cPayC2 none [("H1".toList, cRecC2)]
    ("H1".toList) cRecC2 rfl (by simp) rfl (by decide) rfl).1
  rw [h]
  rw [show cRecC2.kronos_pred = some (2670 : ℚ) from rfl]
  rw [if_pos (truthyQ_lit _ (by norm_num))]

lemma pollLoop_exhausted (net : Network)
    (p42 : List Char → Option (List Char × SocketPayload)) :
    ∀ (n i : Nat),
      (∀ j, i ≤ j → j < i + n → ∃ t pkts, net.pollResp j = .ok t
        ∧ decode_engineio_payload t = .ok pkts
        ∧ findEventPacket pkts p42 = none) →
      pollLoop net p42 i n = .ok none := by
  intro n
  induction n with
  | zero => intro i h; rfl
  | succ m ih =>
    intro i h
    obtain ⟨t, pkts, hok, hdec, hev⟩ := h i (le_refl i) (by omega)
    rw [pollLoop, hok, exceptBindOk, hdec, exceptBindOk, hev]
    exact ih (i + 1) (fun j hj1 hj2 => h j (by omega) (by omega))

/-- C3: neither the streaming handshake client nor the acquisition
orchestrator lets an exception escape: each is a total function into an
option type; a network failure on the open exchange, a missing or empty
session id, a malformed open body whose framing decode raises, and
exhausting every poll without the targeted event each yield no payload;
and a raising markup fetch after a failed streaming path yields the
distinguished failed outcome. -/
theorem acquisition_never_raises :
    (∀ (net : Network) (p0 : List Char → Option SidJson)
       (p42 : List Char → Option (List Char × SocketPayload)) (mp : Nat),
        fetch_update_all_via_socketio net p0 p42 mp = none
          ∨ ∃ d, fetch_update_all_via_socketio net p0 p42 mp = some d)
    ∧ (∀ (net : Network) (p0 : List Char → Option SidJson)
        (p42 : List Char → Option (List Char × SocketPayload)) (mp : Nat) (e : PyErr),
        net.openResp = .error e →
        fetch_update_all_via_socketio net p0 p42 mp = none)
    ∧ (∀ (net : Network) (p0 : List Char → Option SidJson)
        (p42 : List Char → Option (List Char × SocketPayload)) (mp : Nat)
        (body : List Char) (pkts : List (List Char)),
        net.openResp = .ok body →
        decode_engineio_payload body = .ok pkts →
        (findSid pkts p0 = none ∨ findSid pkts p0 = some []) →
        fetch_update_all_via_socketio net p0 p42 mp = none)
    ∧ (∀ (net : Network) (p0 : List Char → Option SidJson)
        (p42 : List Char → Option (List Char × SocketPayload)) (mp : Nat)
        (body : List Char) (e : PyErr),
        net.openResp = .ok body →
        decode_engineio_payload body = .error e →
        fetch_update_all_via_socketio net p0 p42 mp = none)
    ∧ (∀ (net : Network) (p0 : List Char → Option SidJson)
        (p42 : List Char → Option (List Char × SocketPayload)) (mp : Nat),
        (∀ j, j < mp → ∃ t pkts, net.pollResp j = .ok t
          ∧ decode_engineio_payload t = .ok pkts
          ∧ findEventPacket pkts p42 = none) →
        fetch_update_all_via_socketio net p0 p42 mp = none)
    ∧ (∀ (net : Network) (p0 : List Char → Option SidJson)
        (p42 : List Char → Option (List Char × SocketPayload)) (mp : Nat)
        (ptf : Option (List Char)) (mf : Except PyErr MarkupInputs),
        check_kronos_price net p0 p42 mp ptf mf = none
          ∨ ∃ s, check_kronos_price net p0 p42 mp ptf mf = some s)
    ∧ (∀ (net : Network) (p0 : List Char → Option SidJson)
        (p42 : List Char → Option (List Char × SocketPayload)) (mp : Nat)
        (ptf : Option (List Char)) (e : PyErr),
        fetch_update_all_via_socketio net p0 p42 mp = none →
        check_kronos_price net p0 p42 mp ptf (.error e) = none) := by
  refine ⟨?_, ?_, ?_, ?_, ?_, ?_, ?_⟩
  · intro net p0 p42 mp
    cases h : fetch_update_all_via_socketio net p0 p42 mp with
    | none => exact Or.inl rfl
    | some d => exact Or.inr ⟨d, rfl⟩
  · intro net p0 p42 mp e hopen
    unfold fetch_update_all_via_socketio fetchBody
    rw [hopen, exceptBindErr]
  · intro net p0 p42 mp body pkts hopen hdec hsid
    unfold fetch_update_all_via_socketio fetchBody
    rw [hopen, exceptBindOk, hdec, exceptBindOk]
    try dsimp only
    rw [if_pos hsid]
    rfl
  · intro net p0 p42 mp body e hopen hdec
    unfold fetch_update_all_via_socketio fetchBody
    rw [hopen, exceptBindOk, hdec, exceptBindErr]
  · intro net p0 p42 mp hpolls
    unfold fetch_update_all_via_socketio fetchBody
    cases hopen : net.openResp with
    | error e => rw [exceptBindErr]
    | ok body =>
      rw [exceptBindOk]
      cases hdec : decode_engineio_payload body with
      | error e => rw [exceptBindErr]
      | ok pkts =>
        rw [exceptBindOk]
        try dsimp only
        by_cases hsid : findSid pkts p0 = none ∨ findSid pkts p0 = some []
        · rw [if_pos hsid]
          rfl
        · rw [if_neg hsid]
          cases hpost : net.postResp with
          | error e => rw [exceptBindErr]
          | ok u =>
            cases u
            rw [exceptBindOk]
            rw [pollLoop_exhausted net p42 mp 0
              (fun j hj1 hj2 => hpolls j (by omega))]
  · intro net p0 p42 mp ptf mf
    cases h : check_kronos_price net p0 p42 mp ptf mf with
    | none => exact Or.inl rfl
    | some s => exact Or.inr ⟨s, rfl⟩
  · intro net p0 p42 mp ptf e hfetch
    unfold check_kronos_price checkBody
    rw [hfetch]
    rfl

/-- Witness for C3: the handshake client on a failing open exchange and
the orchestrator with both paths failing return their distinguished
no-payload and failed outcomes. -/
theorem acquisition_never_raises_witness :
    fetch_update_all_via_socketio cBadNet cParse0 (cParse42 cPayEmpty) 5 = none
      ∧ check_kronos_price cBadNet cParse0 (cParse42 cPayEmpty) 5 none
          (.error PyErr.err) = none := by
  have h1 : fetch_update_all_via_socketio cBadNet cParse0 (cParse42 cPayEmpty) 5 = none :=
    acquisition_never_raises.2.1 cBadNet cParse0 (cParse42 cPayEmpty) 5 PyErr.err rfl
  exact ⟨h1, (acquisition_never_raises.2.2.2.2.2.2) cBadNet cParse0 (cParse42 cPayEmpty)
    5 none PyErr.err h1⟩
